import Mathlib

/-!
Shallow embedding of `generate-heatmap.mjs`: a batch tool that aggregates
per-day record counts and renders a year calendar heatmap as an SVG grid.
The network fetch, the browser, and the file output are external
collaborators; the pure logic (leap years, color bucketing, count
aggregation, grid layout) is embedded below and verified against the
specified properties.
-/

namespace Heatmap

/-- Embedding of `isLeapYear` (line 10). JS `%` and Lean `%` agree on the
zero test used here, since both vanish exactly on divisibility. -/
def isLeapYear (year : Int) : Bool :=
  (decide (year % 4 = 0) && decide (year % 100 ≠ 0)) || decide (year % 400 = 0)

/-- The five-color palette of `getColorByCount` (line 15), lightest first. -/
def colors : List String :=
  ["#ebedf0", "#c6e48b", "#7bc96f", "#239a3b", "#196127"]

/-- Embedding of `getColorByCount` (lines 14-21). Counts are non-negative
integers: the aggregator produces naturals and absent dates give 0. -/
def getColorByCount (count : Nat) : String :=
  if count = 0 then colors.getD 0 ("")
  else if count = 1 then colors.getD 1 ("")
  else if count ≤ 3 then colors.getD 2 ("")
  else if count ≤ 6 then colors.getD 3 ("")
  else colors.getD 4 ("")

/-- Index of the palette entry chosen by `getColorByCount`, following the
same branch structure; bucket 0 is the lightest color, bucket 4 the
darkest. -/
def bucketIndex (count : Nat) : Nat :=
  if count = 0 then 0
  else if count = 1 then 1
  else if count ≤ 3 then 2
  else if count ≤ 6 then 3
  else 4

/-- The date property of a record, `record.properties[...].date`, whose
`start` field may be null (line 44). -/
structure DateProp where
  start : Option String
deriving Repr, DecidableEq

/-- A fetched record: `dateProp` is `none` when the optional-chaining walk
`record.properties?.[...]?.date` comes out undefined (line 44). -/
structure NotionRecord where
  dateProp : Option DateProp
deriving Repr, DecidableEq

/-- The start string of a record, `none` when the date property or its
start value is absent. -/
def startOf (r : NotionRecord) : Option String :=
  r.dateProp.bind (fun dp => dp.start)

/-- The date portion of a start string: element 0 of the JS
`split('T')` (line 46). For a one-character separator, the first element
of the split is exactly the prefix of the string before the first `T`
(the whole string when no `T` occurs). -/
def datePortion (s : String) : String :=
  String.mk (s.toList.takeWhile (fun c => c != ('T' : Char)))

/-- Normalized date key of a record: the truthiness test
`if (dateProp?.start)` (line 45) rejects an absent start as well as the
empty string, and `split('T')[0]` (line 46) keeps only the portion before
the first `T`. -/
def normKey (r : NotionRecord) : Option String :=
  match startOf r with
  | none => none
  | some s => if s = ("") then none else some (datePortion s)

/-- Lookup in the insertion-ordered association list that models a JS
object with string keys, as in `counts[k]`. -/
def jsGet : List (String × Nat) → String → Option Nat
  | [], _ => none
  | p :: m, k => if p.1 = k then some p.2 else jsGet m k

/-- The JS assignment `counts[dateStr] = (counts[dateStr] || 0) + 1`
(line 47): update the existing entry, or append a new one with count 1. -/
def bumpCount (m : List (String × Nat)) (k : String) : List (String × Nat) :=
  if (jsGet m k).isSome then
    m.map (fun p => if p.1 = k then (p.1, p.2 + 1) else p)
  else m ++ [(k, 1)]

/-- One iteration of the aggregation loop (lines 43-49): a record whose
normalized key is absent is skipped. -/
def stepRecord (m : List (String × Nat)) (r : NotionRecord) : List (String × Nat) :=
  match normKey r with
  | some k => bumpCount m k
  | none => m

/-- The pure aggregation core of `fetchCounts` (lines 42-50). The HTTP
request is an external collaborator; the loop over `data.results` is
embedded as a fold over the record list. -/
def fetchCountsAgg (records : List NotionRecord) : List (String × Nat) :=
  records.foldl stepRecord []

/-- Month offsets of the Sakamoto day-of-week congruence. -/
def sakamotoOffsets : List Int := [0, 3, 2, 5, 0, 3, 5, 1, 4, 6, 2, 4]

/-- The year as adjusted by the Sakamoto congruence: January and February
count as months of the previous year. -/
def sakamotoYear (y : Int) (m : Nat) : Int := if m < 3 then y - 1 else y

/-- Day of week (0 = Sunday .. 6 = Saturday) of a date in the proleptic
Gregorian calendar, by the Sakamoto congruence; `m` is 1-indexed. This is
the calendar that `Date.prototype.getDay` uses: ECMA-262 interprets time
values in the extended (proleptic) Gregorian calendar. Lean `Int` division
is Euclidean, which for the positive divisors used here coincides with
floor division, so the congruence is valid for negative years as well. -/
def dayOfWeek (y : Int) (m : Nat) (d : Int) : Nat :=
  ((sakamotoYear y m + sakamotoYear y m / 4 - sakamotoYear y m / 100 +
    sakamotoYear y m / 400 + sakamotoOffsets.getD (m - 1) 0 + d) % 7).toNat

/-- The ECMAScript `Date(year, month, day)` constructor maps an integer
year argument in 0..99 to 1900 + year (ECMA-262, MakeFullYear in the Date
constructor); all other integer years are taken as given. -/
def jsDateYear (year : Int) : Int :=
  if 0 ≤ year ∧ year ≤ 99 then year + 1900 else year

/-- The weekday computed by `new Date(year, month, 1).getDay()` (line 77)
whenever the date's time value is inside the ECMAScript Date range;
`month` is 0-indexed as in JS, and `dayOfWeek` takes a 1-indexed month.
The full embedding of `getDay()`, including the out-of-range NaN result,
is `getDayOfDate` below. -/
def firstDayOfWeek (year : Int) (month : Nat) : Nat :=
  dayOfWeek (jsDateYear year) (month + 1) 1

/-- Day number of a proleptic Gregorian date relative to the epoch
1970-01-01, by the standard civil-calendar conversion (era = 400-year
cycle of 146097 days, day-of-year counted from March); `m` is 1-indexed.
Lean `Int` division is Euclidean, hence floor division for the positive
divisors used here. -/
def daysFromCivil (y : Int) (m : Nat) (d : Int) : Int :=
  let yy : Int := if m ≤ 2 then y - 1 else y
  let era : Int := yy / 400
  let yoe : Int := yy - era * 400
  let mp : Int := ((m : Int) + 9) % 12
  let doy : Int := (153 * mp + 2) / 5 + d - 1
  let doe : Int := yoe * 365 + yoe / 4 - yoe / 100 + doy
  era * 146097 + doe - 719468

/-- Whether `new Date(year, month, 1)` holds a valid time value: ECMA-262
clips time values to at most 8.64e15 milliseconds in magnitude from the
epoch, that is at most 100000000 days (21.4.1.1, TimeClip); beyond that
the Date is invalid and `getDay()` returns NaN. The time value is
midnight local time of the civil date; the zero UTC offset of the CI
environment the tool runs in (TZ=UTC) is assumed, under which the bound
is exactly plus or minus 100000000 whole days. -/
def jsDateInRange (year : Int) (month : Nat) : Bool :=
  decide (-100000000 ≤ daysFromCivil (jsDateYear year) (month + 1) 1 ∧
          daysFromCivil (jsDateYear year) (month + 1) 1 ≤ 100000000)

/-- Full embedding of `new Date(year, month, 1).getDay()` (line 77):
`none` models the NaN returned for an invalid (out-of-range) Date, and
inside the range the result is the proleptic Gregorian weekday of the
(two-digit-remapped) year. -/
def getDayOfDate (year : Int) (month : Nat) : Option Nat :=
  if jsDateInRange year month then some (firstDayOfWeek year month) else none

/-- Embedding of the `daysInMonth` array (line 57). -/
def daysInMonthList (year : Int) : List Nat :=
  [31, if isLeapYear year then 29 else 28, 31, 30, 31, 30, 31, 31, 30, 31, 30, 31]

/-- `daysInMonth[month]` for a 0-indexed month (out-of-range reads do not
occur: the month loop runs over 0..11). -/
def daysInMonth (year : Int) (month : Nat) : Nat :=
  (daysInMonthList year).getD month 0

/-- Embedding of `Math.ceil((firstDayOfWeek + totalDays) / 7)` (line 79):
on naturals the ceiling of n / 7 is (n + 6) / 7. -/
def weeksNeeded (year : Int) (month : Nat) : Nat :=
  (firstDayOfWeek year month + daysInMonth year month + 6) / 7

/-- Embedding of `Math.min(weeksNeeded, 5)` (line 80). -/
def actualWeeks (year : Int) (month : Nat) : Nat :=
  min (weeksNeeded year month) 5

/-- Cell size in SVG units (line 54). -/
def cellSize : Nat := 16

/-- Inter-cell spacing in SVG units (line 55). -/
def spacing : Nat := 4

/-- Column pitch (line 59). -/
def colWidth : Nat := cellSize + spacing

/-- Row pitch (line 60). -/
def rowHeight : Nat := cellSize + spacing

/-- Left margin reserved for weekday labels (line 61). -/
def leftMargin : Nat := 60

/-- Top margin reserved for month labels (line 62). -/
def topMargin : Nat := 30

/-- Total column slots: 12 months times 5 slots (line 63). -/
def totalColumns : Nat := 12 * 5

/-- Canvas width (line 64). -/
def svgWidth : Nat := leftMargin + totalColumns * colWidth

/-- Canvas height (line 65). -/
def svgHeight : Nat := topMargin + 7 * rowHeight

/-- `String(n).padStart(2, '0')` for a natural number (line 95). -/
def pad2 (n : Nat) : String :=
  let s := toString n
  if s.length < 2 then ("0") ++ s else s

/-- The `YYYY-MM-DD` key built on line 95 (`month` 0-indexed). -/
def dateKey (year : Int) (month day : Nat) : String :=
  toString year ++ ("-") ++ pad2 (month + 1) ++ ("-") ++ pad2 day

/-- One `<rect>` day cell: `col` is the global column index at which the
cell is placed (its x coordinate is `leftMargin + col * colWidth`), `row`
is the weekday (y is `topMargin + row * rowHeight`). -/
structure DayCell where
  col : Nat
  row : Nat
  date : String
  color : String
deriving Repr, DecidableEq

/-- `dayOfMonth = week * 7 + weekday - firstDayOfWeek + 1` (line 90), an
integer that can be non-positive or exceed the month length. -/
def dayOfMonthAt (fdw week weekday : Nat) : Int :=
  (week : Int) * 7 + (weekday : Int) - (fdw : Int) + 1

/-- The day cells one month emits (lines 88-102), given the global column
index `gci` at which the month starts: for each of `actualWeeks` week
columns and each of the 7 weekdays, a cell is emitted exactly when its
`dayOfMonth` lies in `[1, daysInMonth]` (line 94). -/
def dayCellsOfMonth (counts : List (String × Nat)) (year : Int) (month gci : Nat) : List DayCell :=
  (List.range (actualWeeks year month)).flatMap (fun week =>
    (List.range 7).filterMap (fun (weekday : Nat) =>
      if 1 ≤ dayOfMonthAt (firstDayOfWeek year month) week weekday ∧
          dayOfMonthAt (firstDayOfWeek year month) week weekday ≤ (daysInMonth year month : Int) then
        some { col := gci + week, row := weekday,
               date := dateKey year month (dayOfMonthAt (firstDayOfWeek year month) week weekday).toNat,
               color := getColorByCount ((jsGet counts
                 (dateKey year month (dayOfMonthAt (firstDayOfWeek year month) week weekday).toNat)).getD 0) }
      else none))

/-- One iteration of the month loop (lines 76-107): emit the cells of the
month, advance the column counter by `actualWeeks` (line 101), then pad
with blank columns until 5 have been consumed for the month
(lines 104-106); since `5 - actualWeeks` is natural subtraction, it is 0
exactly when the padding loop body never runs. -/
def monthStep (counts : List (String × Nat)) (year : Int)
    (acc : List DayCell × Nat) (month : Nat) : List DayCell × Nat :=
  let aw := actualWeeks year month
  (acc.1 ++ dayCellsOfMonth counts year month acc.2, acc.2 + aw + (5 - aw))

/-- The full month loop (lines 75-107) for years whose months all carry a
valid Date: all day cells of the year together with the final global
column index. The variant `renderMonthsClipped` below additionally models
the NaN path for out-of-range dates. -/
def renderMonths (counts : List (String × Nat)) (year : Int) : List DayCell × Nat :=
  (List.range 12).foldl (monthStep counts year) ([], 0)

/-- One iteration of the month loop under the faithful NaN semantics of
`getDay()`: when the month's Date is invalid, `firstDayOfWeek` is NaN, so
`weeksNeeded = Math.ceil((NaN + totalDays)/7)` is NaN, `actualWeeks =
Math.min(NaN, 5)` is NaN, the week loop (`week < NaN` is false), the
month-label branch (`NaN > 0` is false) and the padding loop (`pad = NaN;
NaN < 5` is false) are all skipped: no cells are emitted and the global
column counter does not advance. Inside the range the iteration is
exactly `monthStep`. -/
def monthStepClipped (counts : List (String × Nat)) (year : Int)
    (acc : List DayCell × Nat) (month : Nat) : List DayCell × Nat :=
  match getDayOfDate year month with
  | some _ => monthStep counts year acc month
  | none => acc

/-- The full month loop (lines 75-107) with the NaN path modelled. -/
def renderMonthsClipped (counts : List (String × Nat)) (year : Int) : List DayCell × Nat :=
  (List.range 12).foldl (monthStepClipped counts year) ([], 0)

/-- The scene described by the generated SVG document: a fixed canvas size
and the day cells. The weekday and month labels are text marks that no
verified property mentions beyond existence, so they are not modelled. -/
structure Scene where
  width : Nat
  height : Nat
  cells : List DayCell

/-- Embedding of `generateHeatmapSVG` (lines 53-111). -/
def generateHeatmapSVG (counts : List (String × Nat)) (year : Int) : Scene :=
  { width := svgWidth, height := svgHeight, cells := (renderMonths counts year).1 }

/-- The clip width of the screenshot taken by `main` (line 151). -/
def screenshotClipWidth : Nat := 1200

/-- Number of day cells a month emits, as a pure function of the first
weekday, the month length, and the rendered week count; mirrors the range
test of `dayCellsOfMonth`. -/
def cellCount (fdw td aw : Nat) : Nat :=
  ((List.range aw).map (fun week =>
    ((List.range 7).filter (fun weekday =>
      decide (1 ≤ dayOfMonthAt fdw week weekday ∧
              dayOfMonthAt fdw week weekday ≤ (td : Int)))).length)).sum

/-- A concrete record carrying a plain date-only start value, used to
instantiate universally quantified results on concrete inputs. -/
def sampleRecord : NotionRecord :=
  { dateProp := some { start := some ("2024-01-01") } }

/-- A concrete record whose whole date property is absent. -/
def absentRecord : NotionRecord :=
  { dateProp := none }

/-- C5: `getColorByCount` is total on the naturals and picks bucket 0 for
count 0, bucket 1 for count 1, bucket 2 for counts 2-3, bucket 3 for
counts 4-6, and bucket 4 for every count at least 7; the bucket index is
monotone in the count, so a higher count never maps to a lighter bucket. -/
theorem claim_C5 :
    (∀ n : Nat, getColorByCount n = colors.getD (bucketIndex n) ("")) ∧
    bucketIndex 0 = 0 ∧ bucketIndex 1 = 1 ∧
    (∀ n : Nat, 2 ≤ n → n ≤ 3 → bucketIndex n = 2) ∧
    (∀ n : Nat, 4 ≤ n → n ≤ 6 → bucketIndex n = 3) ∧
    (∀ n : Nat, 7 ≤ n → bucketIndex n = 4) ∧
    (∀ m n : Nat, m ≤ n → bucketIndex m ≤ bucketIndex n) := by
  refine ⟨?_, rfl, rfl, ?_, ?_, ?_, ?_⟩
  · intro n; unfold getColorByCount bucketIndex; split_ifs <;> rfl
  · intro n h2 h3; unfold bucketIndex; split_ifs <;> omega
  · intro n h4 h6; unfold bucketIndex; split_ifs <;> omega
  · intro n h7; unfold bucketIndex; split_ifs <;> omega
  · intro m n h; unfold bucketIndex; split_ifs <;> omega

/-- Witness for C5 at concrete counts. -/
theorem claim_C5_witness :
    bucketIndex 2 = 2 ∧ bucketIndex 6 = 3 ∧ bucketIndex 1000 = 4 ∧
    bucketIndex 3 ≤ bucketIndex 7 :=
  ⟨claim_C5.2.2.2.1 2 (by decide) (by decide),
   claim_C5.2.2.2.2.1 6 (by decide) (by decide),
   claim_C5.2.2.2.2.2.1 1000 (by decide),
   claim_C5.2.2.2.2.2.2 3 7 (by decide)⟩

/-- C8: `isLeapYear` implements the Gregorian rule (divisible by 4 and not
by 100, or divisible by 400), matches the four spot checks, and February
gets 29 days exactly in leap years and 28 otherwise. -/
theorem claim_C8 :
    (∀ year : Int, isLeapYear year = true ↔ (4 ∣ year ∧ (¬ (100 ∣ year) ∨ 400 ∣ year))) ∧
    isLeapYear 1900 = false ∧ isLeapYear 2000 = true ∧
    isLeapYear 2024 = true ∧ isLeapYear 2023 = false ∧
    (∀ year : Int, daysInMonth year 1 = if isLeapYear year then 29 else 28) := by
  refine ⟨?_, by decide, by decide, by decide, by decide, fun year => rfl⟩
  intro year
  simp only [isLeapYear, Bool.or_eq_true, Bool.and_eq_true, decide_eq_true_eq]
  omega

/-- C10: the generated scene always has width 1260 (a 60-unit left margin
plus 60 columns of 20-unit pitch) and height 170, independent of the
input; the entry point clips the screenshot at width 1200, which is 60
units narrower than the scene, so the rightmost 60 units are never
captured. -/
theorem claim_C10 :
    ∀ (counts : List (String × Nat)) (year : Int),
      (generateHeatmapSVG counts year).width = 1260 ∧
      (generateHeatmapSVG counts year).width = 60 + 60 * 20 ∧
      (generateHeatmapSVG counts year).height = 170 ∧
      screenshotClipWidth = 1200 ∧
      screenshotClipWidth < (generateHeatmapSVG counts year).width ∧
      (generateHeatmapSVG counts year).width - screenshotClipWidth = 60 :=
  fun counts year => by
  refine ⟨rfl, rfl, rfl, rfl, ?_, ?_⟩
  · show (1200 : Nat) < (1260 : Nat)
    omega
  · show (1260 : Nat) - (1200 : Nat) = 60
    omega

theorem jsGet_map_bump (m : List (String × Nat)) (k q : String) :
    jsGet (m.map (fun p => if p.1 = k then (p.1, p.2 + 1) else p)) q =
      (jsGet m q).map (fun v => if q = k then v + 1 else v) := by
  induction m with
  | nil => rfl
  | cons p t ih =>
    simp only [List.map_cons]
    by_cases hpk : p.1 = k
    · by_cases hpq : p.1 = q
      · subst hpq
        simp [jsGet, hpk]
      · have hkq : ¬ k = q := by
          rw [← hpk]
          exact hpq
        simp [jsGet, hpk, hpq, hkq, ih]
    · by_cases hpq : p.1 = q
      · subst hpq
        simp [jsGet, hpk]
      · simp [jsGet, hpk, hpq, ih]

theorem jsGet_append_single (m : List (String × Nat)) (k q : String) :
    jsGet (m ++ [(k, 1)]) q =
      match jsGet m q with
      | some v => some v
      | none => if k = q then some 1 else none := by
  induction m with
  | nil => simp [jsGet]
  | cons p t ih => by_cases h : p.1 = q <;> simp [jsGet, h, ih]

theorem getD_bumpCount (m : List (String × Nat)) (k q : String) :
    (jsGet (bumpCount m k) q).getD 0 =
      (jsGet m q).getD 0 + (if q = k then 1 else 0) := by
  unfold bumpCount
  by_cases hs : (jsGet m k).isSome
  · rw [if_pos hs, jsGet_map_bump]
    cases hq : jsGet m q with
    | none =>
      have hqk : ¬ q = k := by
        intro h
        rw [h] at hq
        rw [hq] at hs
        simp at hs
      simp [hqk]
    | some v =>
      by_cases hqk : q = k <;> simp [hqk]
  · rw [if_neg hs, jsGet_append_single]
    cases hq : jsGet m q with
    | none =>
      by_cases hqk : q = k
      · subst hqk
        rw [if_pos rfl]
        simp
      · rw [if_neg (fun h => hqk h.symm)]
        simp [hqk]
    | some v =>
      have : q ≠ k := by
        intro h
        subst h
        rw [hq] at hs
        exact hs rfl
      simp [this]

theorem isSome_bumpCount (m : List (String × Nat)) (k q : String) :
    (jsGet (bumpCount m k) q).isSome ↔ (jsGet m q).isSome ∨ q = k := by
  unfold bumpCount
  by_cases hs : (jsGet m k).isSome
  · rw [if_pos hs, jsGet_map_bump]
    cases hq : jsGet m q with
    | none =>
      simp only [Option.map_none, Option.isSome_none]
      constructor
      · intro h
        exact absurd h (by simp)
      · rintro (h | rfl)
        · simp at h
        · rw [hq] at hs
          simp at hs
    | some v => simp
  · rw [if_neg hs, jsGet_append_single]
    cases hq : jsGet m q with
    | none =>
      by_cases hqk : q = k
      · subst hqk
        rw [if_pos rfl]
        simp
      · rw [if_neg (fun h => hqk h.symm)]
        simp [hqk]
    | some v => simp

theorem getD_foldl_step (records : List NotionRecord) (m : List (String × Nat)) (q : String) :
    (jsGet (records.foldl stepRecord m) q).getD 0 =
      (jsGet m q).getD 0 +
        (records.filter (fun r => decide (normKey r = some q))).length := by
  induction records generalizing m with
  | nil => simp
  | cons r rs ih =>
    rw [List.foldl_cons, ih]
    cases hk : normKey r with
    | none => simp [stepRecord, hk, List.filter_cons]
    | some k =>
      simp only [stepRecord, hk]
      rw [getD_bumpCount]
      by_cases hq : q = k
      · subst hq
        have hf : ((r :: rs).filter (fun x => decide (normKey x = some q))).length
            = (rs.filter (fun x => decide (normKey x = some q))).length + 1 := by
          rw [List.filter_cons]
          simp [hk]
        rw [hf, if_pos rfl]
        omega
      · have hkq : ¬ k = q := fun h => hq h.symm
        have hf : ((r :: rs).filter (fun x => decide (normKey x = some q))).length
            = (rs.filter (fun x => decide (normKey x = some q))).length := by
          rw [List.filter_cons]
          simp [hk, hkq]
        rw [hf, if_neg hq]
        omega

theorem isSome_foldl_step (records : List NotionRecord) (m : List (String × Nat)) (q : String) :
    (jsGet (records.foldl stepRecord m) q).isSome ↔
      (jsGet m q).isSome ∨ ∃ r ∈ records, normKey r = some q := by
  induction records generalizing m with
  | nil => simp
  | cons r rs ih =>
    rw [List.foldl_cons, ih]
    cases hk : normKey r with
    | none =>
      simp only [stepRecord, hk, List.mem_cons]
      constructor
      · rintro (h | ⟨x, hx, hnx⟩)
        · exact Or.inl h
        · exact Or.inr ⟨x, Or.inr hx, hnx⟩
      · rintro (h | ⟨x, (rfl | hx), hnx⟩)
        · exact Or.inl h
        · rw [hk] at hnx
          exact absurd hnx (by simp)
        · exact Or.inr ⟨x, hx, hnx⟩
    | some k =>
      simp only [stepRecord, hk]
      rw [isSome_bumpCount]
      constructor
      · rintro ((h | rfl) | ⟨x, hx, hnx⟩)
        · exact Or.inl h
        · exact Or.inr ⟨r, List.mem_cons_self r rs, hk⟩
        · exact Or.inr ⟨x, List.mem_cons_of_mem r hx, hnx⟩
      · rintro (h | ⟨x, hx, hnx⟩)
        · exact Or.inl (Or.inl h)
        · rcases List.mem_cons.1 hx with rfl | hx
          · rw [hk] at hnx
            exact Or.inl (Or.inr (by injection hnx with h; exact h.symm))
          · exact Or.inr ⟨x, hx, hnx⟩

theorem dayOfWeek_lt_seven (y : Int) (m : Nat) (d : Int) : dayOfWeek y m d < 7 := by
  unfold dayOfWeek
  generalize sakamotoYear y m + sakamotoYear y m / 4 - sakamotoYear y m / 100 +
    sakamotoYear y m / 400 + sakamotoOffsets.getD (m - 1) 0 + d = z
  omega

theorem firstDayOfWeek_lt_seven (year : Int) (month : Nat) :
    firstDayOfWeek year month < 7 :=
  dayOfWeek_lt_seven _ _ _

theorem actualWeeks_le_five (year : Int) (month : Nat) :
    actualWeeks year month ≤ 5 :=
  min_le_right _ _

theorem daysInMonth_bounds (year : Int) (month : Nat) (h : month < 12) :
    28 ≤ daysInMonth year month ∧ daysInMonth year month ≤ 31 := by
  have e0 : daysInMonth year 0 = 31 := rfl
  have e1 : daysInMonth year 1 = if isLeapYear year then 29 else 28 := rfl
  have e2 : daysInMonth year 2 = 31 := rfl
  have e3 : daysInMonth year 3 = 30 := rfl
  have e4 : daysInMonth year 4 = 31 := rfl
  have e5 : daysInMonth year 5 = 30 := rfl
  have e6 : daysInMonth year 6 = 31 := rfl
  have e7 : daysInMonth year 7 = 31 := rfl
  have e8 : daysInMonth year 8 = 30 := rfl
  have e9 : daysInMonth year 9 = 31 := rfl
  have e10 : daysInMonth year 10 = 30 := rfl
  have e11 : daysInMonth year 11 = 31 := rfl
  interval_cases month <;>
    simp only [e0, e1, e2, e3, e4, e5, e6, e7, e8, e9, e10, e11] <;>
    first
      | omega
      | (split_ifs <;> omega)

theorem length_filterMap_ite {α β : Type} (l : List α) (p : α → Prop)
    [DecidablePred p] (g : α → β) :
    (l.filterMap (fun a => if p a then some (g a) else none)).length =
      (l.filter (fun a => decide (p a))).length := by
  induction l with
  | nil => rfl
  | cons a t ih => by_cases hp : p a <;> simp [List.filterMap_cons, List.filter_cons, hp, ih]

theorem length_dayCellsOfMonth (counts : List (String × Nat)) (year : Int) (month gci : Nat) :
    (dayCellsOfMonth counts year month gci).length =
      cellCount (firstDayOfWeek year month) (daysInMonth year month) (actualWeeks year month) := by
  unfold dayCellsOfMonth cellCount
  rw [List.length_flatMap]
  congr 1
  apply List.map_congr_left
  intro week _
  simp only [Function.comp_apply]
  exact length_filterMap_ite (List.range 7)
    (fun weekday =>
      1 ≤ dayOfMonthAt (firstDayOfWeek year month) week weekday ∧
        dayOfMonthAt (firstDayOfWeek year month) week weekday ≤ (daysInMonth year month : Int))
    (fun weekday =>
      ({ col := gci + week, row := weekday,
         date := dateKey year month (dayOfMonthAt (firstDayOfWeek year month) week weekday).toNat,
         color := getColorByCount ((jsGet counts
           (dateKey year month (dayOfMonthAt (firstDayOfWeek year month) week weekday).toNat)).getD 0) } : DayCell))

theorem cellCount_spec (fdw td : Nat) (h7 : fdw < 7) (h28 : 28 ≤ td) (h31 : td ≤ 31) :
    ((fdw + td + 6) / 7 ≤ 5 → cellCount fdw td (min ((fdw + td + 6) / 7) 5) = td) ∧
    (5 ≤ (fdw + td + 6) / 7 →
      cellCount fdw td (min ((fdw + td + 6) / 7) 5) = min td (35 - fdw)) := by
  interval_cases fdw <;> interval_cases td <;> decide

/-- C6: the aggregator keys records by the date portion of their start
value (everything before the first `T`), so two start values on the same
calendar day collapse into one key, and the value stored at each key is
exactly the number of records normalizing to it. -/
theorem claim_C6 :
    (∀ (records : List NotionRecord) (key : String),
      (jsGet (fetchCountsAgg records) key).getD 0 =
        (records.filter (fun r => decide (normKey r = some key))).length) ∧
    normKey { dateProp := some { start := some ("2024-03-05T10:00:00Z") } } =
      some ("2024-03-05") ∧
    normKey { dateProp := some { start := some ("2024-03-05") } } =
      some ("2024-03-05") := by
  refine ⟨?_, by decide, by decide⟩
  intro records key
  unfold fetchCountsAgg
  rw [getD_foldl_step]
  simp [jsGet]

/-- C7: a record whose date property is absent, or whose start value is
null, is skipped by the aggregation: removing it from the input leaves
the output unchanged (and the embedding is a total function, so no
exception is possible). -/
theorem claim_C7 :
    ∀ (pre post : List NotionRecord) (r : NotionRecord),
      (r.dateProp = none ∨ ∃ dp, r.dateProp = some dp ∧ dp.start = none) →
      fetchCountsAgg (pre ++ r :: post) = fetchCountsAgg (pre ++ post) := by
  intro pre post r h
  have hnorm : normKey r = none := by
    rcases h with h | ⟨dp, hdp, hs⟩
    · simp [normKey, startOf, h]
    · simp [normKey, startOf, hdp, hs]
  unfold fetchCountsAgg
  rw [List.foldl_append, List.foldl_append, List.foldl_cons]
  have : stepRecord (pre.foldl stepRecord []) r = pre.foldl stepRecord [] := by
    simp [stepRecord, hnorm]
  rw [this]

/-- Witness for C7: a record with an absent date property is dropped. -/
theorem claim_C7_witness :
    fetchCountsAgg ([] ++ absentRecord :: []) = fetchCountsAgg ([] ++ []) :=
  claim_C7 [] [] absentRecord (Or.inl rfl)

/-- C9: a key is present in the aggregated map exactly when some record
normalizes to it, and every stored count is at least 1. -/
theorem claim_C9 :
    ∀ (records : List NotionRecord) (key : String),
      ((jsGet (fetchCountsAgg records) key).isSome ↔
        ∃ r ∈ records, normKey r = some key) ∧
      (∀ n : Nat, jsGet (fetchCountsAgg records) key = some n → 1 ≤ n) := by
  intro records key
  have hiff : (jsGet (fetchCountsAgg records) key).isSome ↔
      ∃ r ∈ records, normKey r = some key := by
    unfold fetchCountsAgg
    rw [isSome_foldl_step]
    simp [jsGet]
  refine ⟨hiff, ?_⟩
  intro n hn
  have h1 : (jsGet (fetchCountsAgg records) key).getD 0 =
      (records.filter (fun r => decide (normKey r = some key))).length := by
    unfold fetchCountsAgg
    rw [getD_foldl_step]
    simp [jsGet]
  obtain ⟨r, hr, hkey⟩ := hiff.1 (by rw [hn]; rfl)
  have hmem : r ∈ records.filter (fun r => decide (normKey r = some key)) :=
    List.mem_filter.2 ⟨hr, by simp [hkey]⟩
  have hpos := List.length_pos_of_mem hmem
  rw [hn] at h1
  simp at h1
  omega

/-- Witness for C9: one record with start `2024-01-01` yields the key with
count 1, which is at least 1. -/
theorem claim_C9_witness :
    1 ≤ 1 ∧
      ((jsGet (fetchCountsAgg [sampleRecord]) ("2024-01-01")).isSome ↔
        ∃ r ∈ [sampleRecord], normKey r = some ("2024-01-01")) :=
  ⟨(claim_C9 [sampleRecord] ("2024-01-01")).2 1 (by decide),
   (claim_C9 [sampleRecord] ("2024-01-01")).1⟩

/-- C1: the number of day cells a month emits is exactly `daysInMonth`
when `weeksNeeded` is at most 5, and `min daysInMonth (5*7 - firstDayOfWeek)`
when the clamp to 5 weeks is reached. -/
theorem claim_C1 :
    ∀ (counts : List (String × Nat)) (year : Int) (month gci : Nat), month < 12 →
      (weeksNeeded year month ≤ 5 →
        (dayCellsOfMonth counts year month gci).length = daysInMonth year month) ∧
      (actualWeeks year month = 5 →
        (dayCellsOfMonth counts year month gci).length =
          min (daysInMonth year month) (5 * 7 - firstDayOfWeek year month)) := by
  intro counts year month gci hm
  have hf := firstDayOfWeek_lt_seven year month
  have hd := daysInMonth_bounds year month hm
  have hspec := cellCount_spec (firstDayOfWeek year month) (daysInMonth year month) hf hd.1 hd.2
  have hlen := length_dayCellsOfMonth counts year month gci
  constructor
  · intro h
    exact hlen.trans (hspec.1 h)
  · intro h
    have h5 : 5 ≤ weeksNeeded year month := by
      have hmin : min (weeksNeeded year month) 5 = 5 := h
      omega
    exact hlen.trans (hspec.2 h5)

/-- Witness for C1: January 2024 (first day Monday, 31 days) needs exactly
5 weeks, and both clauses give 31 cells. -/
theorem claim_C1_witness :
    (dayCellsOfMonth [] 2024 0 0).length = daysInMonth 2024 0 ∧
    (dayCellsOfMonth [] 2024 0 0).length =
      min (daysInMonth 2024 0) (5 * 7 - firstDayOfWeek 2024 0) :=
  ⟨(claim_C1 [] 2024 0 0 (by decide)).1 (by decide),
   (claim_C1 [] 2024 0 0 (by decide)).2 (by decide)⟩

theorem monthStep_snd (counts : List (String × Nat)) (year : Int)
    (acc : List DayCell × Nat) (month : Nat) :
    (monthStep counts year acc month).2 = acc.2 + 5 := by
  have haw : actualWeeks year month ≤ 5 := actualWeeks_le_five year month
  have hstep : (monthStep counts year acc month).2 =
      acc.2 + actualWeeks year month + (5 - actualWeeks year month) := rfl
  rw [hstep]
  omega

theorem getDayOfDate_eq_some (year : Int) (month : Nat)
    (h : jsDateInRange year month = true) :
    getDayOfDate year month = some (firstDayOfWeek year month) := by
  unfold getDayOfDate
  rw [if_pos h]

theorem monthStepClipped_inRange (counts : List (String × Nat)) (year : Int)
    (acc : List DayCell × Nat) (month : Nat)
    (h : jsDateInRange year month = true) :
    monthStepClipped counts year acc month = monthStep counts year acc month := by
  unfold monthStepClipped
  rw [getDayOfDate_eq_some year month h]

theorem foldl_monthStepClipped_snd (counts : List (String × Nat)) (year : Int)
    (l : List Nat) (acc : List DayCell × Nat)
    (h : ∀ m ∈ l, jsDateInRange year m = true) :
    (l.foldl (monthStepClipped counts year) acc).2 = acc.2 + 5 * l.length := by
  induction l generalizing acc with
  | nil => simp
  | cons m t ih =>
    rw [List.foldl_cons,
        ih _ (fun x hx => h x (List.mem_cons_of_mem m hx)),
        monthStepClipped_inRange counts year acc m (h m (List.mem_cons_self m t)),
        monthStep_snd, List.length_cons]
    omega

/-- C2 (amended): for every year all of whose 12 months carry a valid
Date, every month advances the global column counter by exactly 5
(`actualWeeks` rendered columns plus the blank padding columns), so the
final global column index is exactly 60. For a month whose Date is out of
the ECMAScript range, `getDay()` is NaN, both loops are skipped and the
counter does not advance, so the claim as stated fails at such years (see
the counterexample). -/
theorem claim_C2 :
    ∀ (counts : List (String × Nat)) (year : Int),
      (∀ (acc : List DayCell × Nat) (month : Nat),
        jsDateInRange year month = true →
        (monthStepClipped counts year acc month).2 = acc.2 + 5) ∧
      ((∀ month : Nat, month < 12 → jsDateInRange year month = true) →
        (renderMonthsClipped counts year).2 = 60) := by
  intro counts year
  constructor
  · intro acc month h
    rw [monthStepClipped_inRange counts year acc month h, monthStep_snd]
  · intro h
    unfold renderMonthsClipped
    rw [foldl_monthStepClipped_snd counts year _ _
        (fun m hm => h m (List.mem_range.1 hm)), List.length_range]

/-- Witness for C2 at year 2024, all of whose months are in range. -/
theorem claim_C2_witness :
    (monthStepClipped [] 2024 (([], 0) : List DayCell × Nat) 0).2 =
      (([], 0) : List DayCell × Nat).2 + 5 ∧
    (renderMonthsClipped [] 2024).2 = 60 :=
  ⟨(claim_C2 [] 2024).1 ([], 0) 0 (by decide), (claim_C2 [] 2024).2 (by decide)⟩

/-- Counterexample to C2 as stated: every month of year 275761 lies beyond
the ECMAScript Date range, `getDay()` is NaN for each of them, both inner
loops are skipped every time, and the final global column index after the
12 months is 0, not 60. -/
theorem claim_C2_cex :
    (renderMonthsClipped [] 275761).2 = 0 ∧
    (renderMonthsClipped [] 275761).2 ≠ 60 :=
  ⟨by decide, by decide⟩

/-- C3: `weeksNeeded` is the ceiling of `(firstDayOfWeek + daysInMonth)/7`
and `actualWeeks` clamps it to at most 5; when a month genuinely needs 6
week columns, only `5*7 - firstDayOfWeek` cells are emitted, strictly
fewer than the days of the month (the trailing days are dropped), and
every emitted cell sits in one of the month's first 5 columns, so a 6th
column is never rendered. -/
theorem claim_C3 :
    ∀ (counts : List (String × Nat)) (year : Int) (month gci : Nat), month < 12 →
      (firstDayOfWeek year month + daysInMonth year month ≤ 7 * weeksNeeded year month ∧
        7 * (weeksNeeded year month - 1) <
          firstDayOfWeek year month + daysInMonth year month) ∧
      actualWeeks year month = min (weeksNeeded year month) 5 ∧
      (5 < weeksNeeded year month →
        (dayCellsOfMonth counts year month gci).length =
          5 * 7 - firstDayOfWeek year month ∧
        (dayCellsOfMonth counts year month gci).length < daysInMonth year month ∧
        ∀ c ∈ dayCellsOfMonth counts year month gci, c.col < gci + 5) := by
  intro counts year month gci hm
  have hf := firstDayOfWeek_lt_seven year month
  have hd := daysInMonth_bounds year month hm
  refine ⟨?_, rfl, ?_⟩
  · have hw : weeksNeeded year month =
        (firstDayOfWeek year month + daysInMonth year month + 6) / 7 := rfl
    omega
  · intro h6
    have hlen := length_dayCellsOfMonth counts year month gci
    have hspec := cellCount_spec (firstDayOfWeek year month) (daysInMonth year month) hf hd.1 hd.2
    have h5 : 5 ≤ weeksNeeded year month := le_of_lt h6
    have hlen2 : (dayCellsOfMonth counts year month gci).length =
        min (daysInMonth year month) (35 - firstDayOfWeek year month) :=
      hlen.trans (hspec.2 h5)
    have hgt : 35 < firstDayOfWeek year month + daysInMonth year month := by
      have hw : weeksNeeded year month =
          (firstDayOfWeek year month + daysInMonth year month + 6) / 7 := rfl
      omega
    refine ⟨by rw [hlen2]; omega, by rw [hlen2]; omega, ?_⟩
    intro c hc
    unfold dayCellsOfMonth at hc
    obtain ⟨week, hweek, hc2⟩ := List.mem_flatMap.1 hc
    obtain ⟨weekday, hwd, heq⟩ := List.mem_filterMap.1 hc2
    have hwlt : week < actualWeeks year month := List.mem_range.1 hweek
    have haw := actualWeeks_le_five year month
    by_cases hcond : 1 ≤ dayOfMonthAt (firstDayOfWeek year month) week weekday ∧
        dayOfMonthAt (firstDayOfWeek year month) week weekday ≤ (daysInMonth year month : Int)
    · rw [if_pos hcond] at heq
      have hcol : c.col = gci + week := by
        have hi := Option.some.inj heq
        rw [← hi]
      omega
    · rw [if_neg hcond] at heq
      exact absurd heq (by simp)

/-- Witness for C3: March 2024 starts on a Friday and has 31 days, so it
genuinely needs 6 week columns; only 30 cells are emitted. -/
theorem claim_C3_witness :
    (dayCellsOfMonth [] 2024 2 0).length = 5 * 7 - firstDayOfWeek 2024 2 ∧
    (dayCellsOfMonth [] 2024 2 0).length < daysInMonth 2024 2 :=
  ⟨((claim_C3 [] 2024 2 0 (by decide)).2.2 (by decide)).1,
   ((claim_C3 [] 2024 2 0 (by decide)).2.2 (by decide)).2.1⟩

/-- C4 (amended): for every integer year outside [0, 99] and every month
whose day-1 Date carries a valid time value, `getDay()` returns exactly
the proleptic Gregorian weekday index (0 = Sunday) of day 1 of that month
in that year; for a date beyond the ECMAScript Date range it returns NaN
instead of a weekday, and for years 0..99 the Date constructor
substitutes 1900 + year (see the counterexample). The anchors for 2024,
2000 and 1970 match the known calendar, and year 275761 is out of
range. -/
theorem claim_C4 :
    (∀ (year : Int) (month : Nat), year < 0 ∨ 99 < year →
      jsDateInRange year month = true →
      getDayOfDate year month = some (dayOfWeek year (month + 1) 1)) ∧
    (∀ (year : Int) (month : Nat), jsDateInRange year month = false →
      getDayOfDate year month = none) ∧
    getDayOfDate 2024 0 = some 1 ∧ getDayOfDate 2000 0 = some 6 ∧
    getDayOfDate 1970 0 = some 4 ∧ getDayOfDate 275761 0 = none := by
  refine ⟨?_, ?_, by decide, by decide, by decide, by decide⟩
  · intro year month h hr
    rw [getDayOfDate_eq_some year month hr]
    unfold firstDayOfWeek jsDateYear
    rw [if_neg (by omega : ¬ (0 ≤ year ∧ year ≤ 99))]
  · intro year month h
    simp [getDayOfDate, h]

/-- Witness for C4 at year 2024, January. -/
theorem claim_C4_witness :
    getDayOfDate 2024 0 = some (dayOfWeek 2024 (0 + 1) 1) :=
  claim_C4.1 2024 0 (Or.inr (by omega)) (by decide)

/-- Counterexample to C4 as stated: year 0 is inside the Date range, but
the JS `Date` constructor remaps two-digit years, so the renderer uses
the weekday of 1900-01-01 (a Monday, 1), while the Gregorian weekday of
day 1 of January of year 0 is Saturday (6). -/
theorem claim_C4_cex :
    getDayOfDate 0 0 = some 1 ∧ dayOfWeek 0 1 1 = 6 ∧
    getDayOfDate 0 0 ≠ some (dayOfWeek 0 1 1) :=
  ⟨by decide, by decide, by decide⟩

end Heatmap
